import Mathlib

/-!
Verification development for the chunked media transfer engine of the
tgstorage repository (file `src/core/actions/message-media.ts`).

The TypeScript engine is embedded shallowly:

* registry entries (`DownloadingFile`, `StreamingFile`, the sending message
  with its `InputFile` list) become Lean structures;
* the cooperative async scheduling is made explicit: every `await` in the
  source is a suspension point, and the environment structures
  (`DownloadEnv`, `UploadEnv`, ...) carry both the transport results and an
  interference function describing what external actors do to the registry
  during each suspension;
* each run returns the final registry state together with a trace of
  observable events (transport requests, byte-store writes, registry
  writes, refresh calls), on which the properties are stated;
* the unbounded recursion of the stream reader is given an explicit fuel
  argument bounding how many refresh continuations the environment
  delivers.

Functions whose source is outside the shown files (`generateFileKey`,
`FILE_SIZE`) are modelled from the specification and marked as such.
-/

namespace TgStorage

/-- JavaScript `Math.round (num / den)` on nonnegative rationals:
round half up, as a Nat operation. -/
def jsRound (num den : Nat) : Nat := (2 * num + den) / (2 * den)

/-- Modelled from the spec: `FILE_SIZE.KB512` comes from
`~/tools/handle-file`, which is not among the shown sources; the spec
scenario uses a download part size of 512000 bytes. -/
def FILE_SIZE_KB512 : Nat := 512000

def DOWNLOADING_PART_SIZE : Nat := FILE_SIZE_KB512

def MAX_DOWNLOADING_COUNT : Nat := 4

/-- Modelled from the spec: `generateFileKey` comes from
`~/tools/handle-file`, which is not among the shown sources; the spec says
the fileKey is a deterministic function of `(id, size[, sizeType])`. -/
def generateFileKey (id : String) (size : Nat) (sizeType : Option String) : String :=
  id ++ "_" ++ toString size ++ (match sizeType with
    | some s => "_" ++ s
    | none => "")

/-- Registry entry for a queued download, mirroring the fields of
`DownloadingFile` that `message-media.ts` touches.  `lastPart = none`
models the JavaScript `undefined`, which the task destructures to `-1`. -/
structure DownloadingFile where
  id : String
  size : Nat
  partSize : Nat := 0
  partsCount : Nat := 0
  lastPart : Option Nat := none
  dc_id : Nat := 0
  access_hash : Nat := 0
  file_reference : Nat := 0
  sizeType : Option String := none
  originalSizeType : Option String := none
  type : String := ""
  downloading : Bool := false
  progress : Nat := 0
  fileKey : Option String := none
deriving DecidableEq

/-- The argument record of one `api.downloadFilePart` call. -/
structure PartRequest where
  id : String
  partSize : Nat
  offsetSize : Nat
  dc_id : Nat
  access_hash : Nat
  file_reference : Nat
  sizeType : Option String
  originalSizeType : Option String
deriving DecidableEq

/-- The locals the download task destructures once from the registry entry
when it starts running (lines 250-262 of the source). -/
structure TaskCtx where
  id : String
  partsCount : Nat
  partSize : Nat
  dc_id : Nat
  access_hash : Nat
  file_reference : Nat
  sizeType : Option String
  originalSizeType : Option String
deriving DecidableEq

def ctxOf (df : DownloadingFile) : TaskCtx :=
  { id := df.id, partsCount := df.partsCount, partSize := df.partSize,
    dc_id := df.dc_id, access_hash := df.access_hash,
    file_reference := df.file_reference, sizeType := df.sizeType,
    originalSizeType := df.originalSizeType }

def mkPartRequest (ctx : TaskCtx) (part : Nat) : PartRequest :=
  { id := ctx.id, partSize := ctx.partSize, offsetSize := part * ctx.partSize,
    dc_id := ctx.dc_id, access_hash := ctx.access_hash,
    file_reference := ctx.file_reference, sizeType := ctx.sizeType,
    originalSizeType := ctx.originalSizeType }

/-- Observable events of one download task run. -/
inductive Ev
  | req (part : Nat) (r : PartRequest)
  | refresh
  | addB (key : String)
  | mkFile (key : String) (mime : String)
  | write (df : DownloadingFile)
deriving DecidableEq

/-- `pauseDownloadingFile`: re-reads the current entry and flips
`downloading` off when it is on (lines 166-177). -/
def pauseDownloadingFile : Option DownloadingFile → Option DownloadingFile
  | some df => if df.downloading then some { df with downloading := false } else some df
  | none => none

/-- Registry write events produced by `pauseDownloadingFile`. -/
def pauseWriteEvs : Option DownloadingFile → List Ev
  | some df => if df.downloading then [Ev.write { df with downloading := false }] else []
  | none => []

/-- The loop start: `lastPart + 1` with `lastPart` defaulting to `-1`. -/
def startOf (df : DownloadingFile) : Nat :=
  match df.lastPart with
  | none => 0
  | some p => p + 1

/-- `lastPart` as an integer, `-1` for the unset default. -/
def lastPartZ (df : DownloadingFile) : Int :=
  match df.lastPart with
  | none => -1
  | some p => (p : Int)

/-- Environment of one download task run: the transport outcome for each
part, the net effect of external actors on the registry entry during each
part fetch `await`, and the terminal key produced by
`transferBytesToFile`. -/
structure DownloadEnv where
  transport : Nat → Except String Nat
  interf : Nat → Option DownloadingFile → Option DownloadingFile
  transferBytes : String → String → String

/-- The part loop of the download task (lines 264-313): from `part`, with
`fuel` bounding the remaining iterations.  Called with
`fuel = partsCount - part` the fuel never runs out before the loop bound
does. -/
def downloadPartLoop (env : DownloadEnv) (ctx : TaskCtx) :
    Option DownloadingFile → Nat → Nat → Option DownloadingFile × List Ev
  | reg, _, 0 => (reg, [])
  | reg, part, fuel + 1 =>
    if part < ctx.partsCount then
      match reg with
      | none => (reg, [])
      | some df =>
        if df.downloading then
          let reg1 := env.interf part reg
          match env.transport part with
          | Except.error msg =>
            if msg = "FILE_REFERENCE_EXPIRED" then
              (pauseDownloadingFile reg1,
                Ev.req part (mkPartRequest ctx part) :: pauseWriteEvs reg1 ++ [Ev.refresh])
            else
              (reg1, [Ev.req part (mkPartRequest ctx part)])
          | Except.ok _ =>
            match reg1 with
            | none => (none, [Ev.req part (mkPartRequest ctx part)])
            | some df2 =>
              let key := generateFileKey df2.id df2.size df2.sizeType
              let isImage := df2.type.startsWith "image" || ctx.sizeType.isSome
              let mime := if isImage then "image/jpeg" else df2.type
              let progress := jsRound ((part + 1) * 100) ctx.partsCount
              if part = ctx.partsCount - 1 then
                let fkey := env.transferBytes key mime
                let df3 := { df2 with
                  fileKey := some fkey
                  downloading := false
                  lastPart := some part
                  progress := progress }
                let rest := downloadPartLoop env ctx (some df3) (part + 1) fuel
                (rest.1, Ev.req part (mkPartRequest ctx part) :: Ev.addB key ::
                  Ev.mkFile key mime :: Ev.write df3 :: rest.2)
              else
                let df3 := { df2 with lastPart := some part, progress := progress }
                let rest := downloadPartLoop env ctx (some df3) (part + 1) fuel
                (rest.1, Ev.req part (mkPartRequest ctx part) :: Ev.addB key ::
                  Ev.write df3 :: rest.2)
        else (reg, [])
    else (reg, [])

/-- The task body enqueued by `downloadFile` (lines 249-314): re-read the
entry, destructure the locals once, then run the part loop from
`lastPart + 1`. -/
def downloadTask (env : DownloadEnv) (reg : Option DownloadingFile) :
    Option DownloadingFile × List Ev :=
  match reg with
  | none => (none, [])
  | some df =>
      downloadPartLoop env (ctxOf df) (some df) (startOf df)
        (df.partsCount - startOf df)

/-- The registry action of `downloadFile` (lines 216-247): gate on a
terminal key or an in-flight download, merge the request locators, set the
geometry when `lastPart` is falsy (absent or `0`), write the entry.  The
boolean reports whether a task was enqueued. -/
def downloadFile (reg : Option DownloadingFile) (file : DownloadingFile) :
    Option DownloadingFile × Bool :=
  let df := reg.getD file
  if df.fileKey.isSome || df.downloading then (reg, false)
  else
    let df1 := { df with
      file_reference := file.file_reference
      dc_id := file.dc_id
      access_hash := file.access_hash
      sizeType := file.sizeType
      downloading := true }
    let df2 := if df1.lastPart = none ∨ df1.lastPart = some 0 then
        { df1 with
          partSize := DOWNLOADING_PART_SIZE
          partsCount := (file.size + DOWNLOADING_PART_SIZE - 1) / DOWNLOADING_PART_SIZE }
      else df1
    (some df2, true)

/-- Extract the registry-write events of a trace. -/
def writesOf (t : List Ev) : List DownloadingFile :=
  t.filterMap fun e => match e with
    | Ev.write df => some df
    | _ => none

def isReqEv : Ev → Bool
  | Ev.req _ _ => true
  | _ => false

def isTermWriteEv : Ev → Bool
  | Ev.write df => df.fileKey.isSome
  | _ => false

/-- No transport request occurs after a write that assigns a terminal
fileKey. -/
def noReqAfterTerminal : List Ev → Bool
  | [] => true
  | e :: t => ((!isTermWriteEv e) || t.all fun x => !isReqEv x) && noReqAfterTerminal t

/-- A download environment with no external interference. -/
def pureEnv (tr : Nat → Except String Nat) (tb : String → String → String) : DownloadEnv :=
  { transport := tr, interf := fun _ r => r, transferBytes := tb }

/-! ### The download scheduler queue (lines 194-214) -/

/-- The `downloadingQueue` object: a round-robin pointer and
`MAX_DOWNLOADING_COUNT` lanes, each an ordered list of task ids. -/
structure QueueState where
  nextIndex : Nat
  lanes : List (List Nat)
deriving DecidableEq

def initQueue : QueueState :=
  { nextIndex := 0, lanes := List.replicate MAX_DOWNLOADING_COUNT [] }

/-- `downloadingQueue.add`: enqueue on lane `nextIndex`, then advance the
pointer, wrapping after lane `MAX_DOWNLOADING_COUNT - 1`.  Returns the
lane the task was assigned to. -/
def downloadingQueueAdd (q : QueueState) (t : Nat) : QueueState × Nat :=
  let i := q.nextIndex
  ({ nextIndex := if i = MAX_DOWNLOADING_COUNT - 1 then 0 else i + 1,
     lanes := q.lanes.set i (q.lanes.getD i [] ++ [t]) }, i)

/-- Lanes assigned to a sequence of requests submitted in order. -/
def assignLanes (q : QueueState) : List Nat → List Nat
  | [] => []
  | t :: ts =>
      (downloadingQueueAdd q t).2 :: assignLanes (downloadingQueueAdd q t).1 ts

/-! ### The upload pipeline (lines 15-138) -/

/-- The slice of `InputFile` the engine touches. -/
structure InputFile where
  fileKey : Option String := none
  thumbFileKey : Option String := none
  progress : Nat := 0
deriving DecidableEq

/-- The sending message as the upload pipeline sees it: its pending
input-file list. -/
structure SendingMsg where
  inputFiles : List InputFile
deriving DecidableEq

/-- `checkIsUploading` (lines 121-126): the sending message still exists
and one of its input files carries this key as main or thumb key. -/
def checkIsUploading (msg : Option SendingMsg) (fileKey : String) : Bool :=
  match msg with
  | none => false
  | some m => m.inputFiles.any fun f =>
      f.fileKey = some fileKey || f.thumbFileKey = some fileKey

/-- The registry update of `onUploadPart` (lines 128-138): write the
progress into the matching input file, provided the sending message still
exists. -/
def onUploadPart (msg : Option SendingMsg) (fileKey : String) (p : Nat) :
    Option SendingMsg :=
  match msg with
  | none => none
  | some m => some { inputFiles := m.inputFiles.map fun f =>
      if f.fileKey = some fileKey then { f with progress := p } else f }

/-- Upload parameters returned by `api.prepareUploadingFile`. -/
structure FileParams where
  partSize : Nat
  lastPartSize : Nat
  partsCount : Nat
  fileId : Nat := 0
  fileName : String := ""
  fileType : String := ""
  isLarge : Bool := false
deriving DecidableEq

/-- Observable events of the upload pipeline. -/
inductive UpEv
  | read (start stop : Nat)
  | send (part : Nat)
  | prog (part : Nat) (value : Nat)
  | purge
  | marker (i : Nat)
deriving DecidableEq

/-- Environment of one per-file upload loop: whether `transformToBytes`
yields bytes for each part, and the interference on the sending message
during the `transformToBytes` and `uploadFilePart` awaits. -/
structure UploadEnv where
  bytesOk : Nat → Bool
  interfA : Nat → Option SendingMsg → Option SendingMsg
  interfB : Nat → Option SendingMsg → Option SendingMsg

/-- The part loop of `uploadFile` (lines 68-94) for one file key.  Returns
the final message state, whether the loop ran to completion, and the trace:
`read` is the `getFilePart` byte range, `send` the `uploadFilePart` call,
`prog` the `onUploadPart` registry write, `purge` the final `deleteFile`. -/
def uploadFileLoop (env : UploadEnv) (ps : FileParams) (isMain : Bool) (fileKey : String) :
    Nat → Option SendingMsg → Nat → Option SendingMsg × Bool × List UpEv
  | 0, msg, part =>
      if part < ps.partsCount then (msg, false, []) else (msg, true, [UpEv.purge])
  | fuel + 1, msg, part =>
    if part < ps.partsCount then
      if checkIsUploading msg fileKey then
        let sz := if part = ps.partsCount - 1 then ps.lastPartSize else ps.partSize
        let rdEv := UpEv.read (part * ps.partSize) (part * ps.partSize + sz)
        let msg1 := env.interfA part msg
        if env.bytesOk part then
          let msg2 := env.interfB part msg1
          let v := jsRound ((part + 1) * 100) ps.partsCount
          let msg3 := if isMain then onUploadPart msg2 fileKey v else msg2
          let progEvs := if isMain && msg2.isSome then [UpEv.prog part v] else []
          let rest := uploadFileLoop env ps isMain fileKey fuel msg3 (part + 1)
          (rest.1, rest.2.1, rdEv :: UpEv.send part :: progEvs ++ rest.2.2)
        else (msg1, false, [rdEv])
      else (msg, false, [])
    else (msg, true, [UpEv.purge])

/-- Environment of one `uploadFile` call: file meta availability, the
transport upload parameters, interference during `prepareUploadingFile`,
and the loop environment. -/
structure UploadFileEnv where
  hasMeta : Bool
  params : FileParams
  interfP : Option SendingMsg → Option SendingMsg
  loopEnv : UploadEnv

/-- The main-file flow of `uploadFile` (lines 52-119): meta and ownership
gate, `prepareUploadingFile`, then the part loop from part 0.  Returns the
upload parameters only when the loop completed (the thumbnail flow runs
alongside, issues no registry writes, and only decorates the result, so it
is not modelled). -/
def uploadFile (e : UploadFileEnv) (fileKey : String) (msg : Option SendingMsg) :
    Option SendingMsg × Option FileParams × List UpEv :=
  if e.hasMeta && checkIsUploading msg fileKey then
    let msg1 := e.interfP msg
    let r := uploadFileLoop e.loopEnv e.params true fileKey e.params.partsCount msg1 0
    (r.1, if r.2.1 then some e.params else none, r.2.2)
  else (msg, none, [])

/-- Environment of an `uploadFiles` batch: a per-file upload environment,
the `createMessage` outcome per file index, and the interference during
the `createMessage` await. -/
structure BatchEnv where
  fileEnv : Nat → UploadFileEnv
  createOk : Nat → Bool
  interfC : Nat → Option SendingMsg → Option SendingMsg

/-- Remove a finished file from the pending list (line 43). -/
def removeFileKey (m : SendingMsg) (k : Option String) : SendingMsg :=
  { inputFiles := m.inputFiles.filter fun f => decide (¬ f.fileKey = k) }

/-- `uploadFiles` (lines 15-50): iterate the captured input-file list; per
file re-check the sending message, upload, create the marker message
(event `marker i`), and for a successful non-final file drop it from the
pending list. -/
def uploadFiles (benv : BatchEnv) :
    List InputFile → Nat → Option SendingMsg → Option SendingMsg × List UpEv
  | [], _, msg => (msg, [])
  | f :: rest, i, msg =>
    match msg with
    | none => (none, [])
    | some _ =>
      match f.fileKey with
      | none => uploadFiles benv rest (i + 1) msg
      | some k =>
        let u := uploadFile (benv.fileEnv i) k msg
        match u.2.1 with
        | none =>
            let r := uploadFiles benv rest (i + 1) u.1
            (r.1, u.2.2 ++ r.2)
        | some _ =>
          let msg2 := benv.interfC i u.1
          if benv.createOk i && !rest.isEmpty then
            match msg2 with
            | none => (none, u.2.2 ++ [UpEv.marker i])
            | some m =>
                let r := uploadFiles benv rest (i + 1) (some (removeFileKey m (some k)))
                (r.1, u.2.2 ++ [UpEv.marker i] ++ r.2)
          else
            let r := uploadFiles benv rest (i + 1) msg2
            (r.1, u.2.2 ++ [UpEv.marker i] ++ r.2)

/-- The progress values written during an upload run, in order. -/
def progValues (t : List UpEv) : List Nat :=
  t.filterMap fun e => match e with
    | UpEv.prog _ v => some v
    | _ => none

def isMarkerEv : UpEv → Bool
  | UpEv.marker _ => true
  | _ => false

/-! ### The stream accessor (lines 317-417) -/

/-- Registry entry for a streaming file: identity, locators, and the
owning message back-reference. -/
structure StreamingFile where
  id : String
  size : Nat := 0
  dc_id : Nat := 0
  access_hash : Nat := 0
  file_reference : Nat := 0
  sizeType : Option String := none
  folder : Option Nat := none
  messageId : Option Nat := none
  streaming : Bool := false
deriving DecidableEq

/-- The argument record of one streaming `api.downloadFilePart` call. -/
structure StreamRequest where
  id : String
  file_reference : Nat
  offsetSize : Nat
  partSize : Nat
  dc_id : Nat
  access_hash : Nat
deriving DecidableEq

inductive SEv
  | req (r : StreamRequest)
  | refresh
deriving DecidableEq

/-- A media record as `getFileReference` scans it. -/
structure Media where
  id : String
  file_reference : Nat
deriving DecidableEq

/-- The slice of a folder message `getFileReference` reads. -/
structure Message where
  media : Option Media := none
  mediaMessages : List Media := []
deriving DecidableEq

/-- `getFileReference` (lines 400-417): scan the primary media and the
secondary media of the located message for the one with this id. -/
def getFileReference (message : Option Message) (id : String) : Option Nat :=
  match message with
  | none => none
  | some m =>
      ((m.media.toList ++ m.mediaMessages).find? fun md => md.id = id).map
        fun md => md.file_reference

/-- Environment of a stream read: the transport outcome per request, and
the message located via folder and messageId after `d` refreshes. -/
structure StreamEnv where
  transport : StreamRequest → Except String Nat
  store : Nat → Option Message

def mkStreamRequest (sf : StreamingFile) (offsetSize partSize : Nat) : StreamRequest :=
  { id := sf.id, file_reference := sf.file_reference, offsetSize := offsetSize,
    partSize := partSize, dc_id := sf.dc_id, access_hash := sf.access_hash }

/-- Merge a caller-supplied fresh reference into the entry (lines 372-378). -/
def mergeRef (sf : StreamingFile) : Option Nat → StreamingFile
  | some r => { sf with file_reference := r }
  | none => sf

/-- `downloadStreamFilePart` (lines 358-398): read the entry, merge a
supplied reference, issue the range read; on `FILE_REFERENCE_EXPIRED` with
the owning folder and messageId present, refresh and recurse with the
reference `getFileReference` finds.  `fuel` bounds how many refresh
continuations the environment delivers; `d` counts performed refreshes. -/
def downloadStreamFilePart (env : StreamEnv) (offsetSize partSize : Nat) :
    Nat → Option StreamingFile → Option Nat → Nat →
    Option StreamingFile × Option Nat × List SEv
  | 0, reg, _, _ => (reg, none, [])
  | fuel + 1, reg, fref, d =>
    match reg with
    | none => (none, none, [])
    | some sf =>
      let sf1 := mergeRef sf fref
      let req := mkStreamRequest sf1 offsetSize partSize
      match env.transport req with
      | Except.ok b => (some sf1, some b, [SEv.req req])
      | Except.error msg =>
        if msg = "FILE_REFERENCE_EXPIRED" then
          if sf1.folder.isSome && decide (¬ sf1.messageId.getD 0 = 0) then
            let newRef := getFileReference (env.store d) sf1.id
            let r := downloadStreamFilePart env offsetSize partSize fuel (some sf1) newRef (d + 1)
            (r.1, r.2.1, SEv.req req :: SEv.refresh :: r.2.2)
          else (some sf1, none, [SEv.req req])
        else (some sf1, none, [SEv.req req])

/-- The requests of a stream trace, in order. -/
def sReqsOf (t : List SEv) : List StreamRequest :=
  t.filterMap fun e => match e with
    | SEv.req r => some r
    | _ => none

def sCountReqs (t : List SEv) : Nat := (sReqsOf t).length

def sCountRefresh (t : List SEv) : Nat :=
  t.countP fun e => e = SEv.refresh

/-- Transport that succeeds below part `q` and rejects part `q` with the
reference-expiry message. -/
def freTransport (q : Nat) : Nat → Except String Nat :=
  fun p => if p = q then Except.error "FILE_REFERENCE_EXPIRED" else Except.ok 0

def freEnv (q : Nat) : DownloadEnv := pureEnv (freTransport q) fun k _ => k

/-- An upload environment whose awaits see no external interference. -/
def idUploadEnv (b : Nat → Bool) : UploadEnv :=
  { bytesOk := b, interfA := fun _ m => m, interfB := fun _ m => m }

/-! ### Concrete instances used to evaluate the model -/

/-- A two-part downloading file as registered by `downloadFile`. -/
def dfW : DownloadingFile :=
  { id := "f1", size := 10, partSize := 5, partsCount := 2, lastPart := none,
    dc_id := 2, access_hash := 3, file_reference := 7, type := "video/mp4",
    downloading := true, progress := 0, fileKey := none }

def dfW3 : DownloadingFile := { dfW with partsCount := 3 }

/-- A finished entry: terminal key assigned, not downloading. -/
def dfDone : DownloadingFile := { dfW with fileKey := some "k0", downloading := false }

def dfPausedW : DownloadingFile := { dfW with downloading := false }

/-- Download environment whose transport always succeeds, no interference. -/
def envOk : DownloadEnv := pureEnv (fun _ => Except.ok 0) fun k _ => k

/-- Download environment whose transport succeeds while external actors
replace the entry file reference during every part await. -/
def envRef : DownloadEnv :=
  { transport := fun _ => Except.ok 0,
    interf := fun _ o => o.map fun d => { d with file_reference := 999 },
    transferBytes := fun k _ => k }

def bTrue : Nat → Bool := fun _ => true

def psU : FileParams := { partSize := 4, lastPartSize := 2, partsCount := 2 }

def mU : SendingMsg := { inputFiles := [{ fileKey := some "k" }] }

/-- A streaming entry whose owning folder and message are known. -/
def sfC3 : StreamingFile :=
  { id := "f", file_reference := 7, folder := some 1, messageId := some 5, streaming := true }

/-- The same entry without a folder back-reference. -/
def sfN : StreamingFile := { sfC3 with folder := none }

/-- Stream environment whose transport always reports an expired reference
and whose message store always locates a media with a fresh reference. -/
def envC3 : StreamEnv :=
  { transport := fun _ => Except.error "FILE_REFERENCE_EXPIRED",
    store := fun _ => some { media := some { id := "f", file_reference := 9 }, mediaMessages := [] } }

def fA7 : InputFile := { fileKey := some "a" }

def fB7 : InputFile := { fileKey := some "b" }

def msg7 : SendingMsg := { inputFiles := [fA7, fB7] }

def psA : FileParams := { partSize := 4, lastPartSize := 2, partsCount := 1 }

def psB : FileParams := { partSize := 4, lastPartSize := 2, partsCount := 2 }

/-- Batch environment for a two-file upload: file 0 uploads cleanly; the
sending message is deleted during the first part upload of file 1. -/
def benv7 : BatchEnv :=
  { fileEnv := fun i =>
      if i = 0 then
        { hasMeta := true, params := psA, interfP := fun m => m, loopEnv := idUploadEnv bTrue }
      else
        { hasMeta := true, params := psB, interfP := fun m => m,
          loopEnv := { bytesOk := fun _ => true,
                       interfA := fun _ m => m,
                       interfB := fun p m => if p = 0 then none else m } },
    createOk := fun _ => true,
    interfC := fun _ m => m }

/-- The sending message after file 0 of the batch has uploaded (its
progress is written as 100). -/
def m2W : SendingMsg :=
  { inputFiles := [{ fileKey := some "a", thumbFileKey := none, progress := 100 }, fB7] }

/-! ## Helper lemmas -/

theorem jsRound_mono {a b : Nat} (d : Nat) (h : a ≤ b) : jsRound a d ≤ jsRound b d :=
  Nat.div_le_div_right (by omega)

theorem lastPartZ_lt_startOf (df : DownloadingFile) : lastPartZ df < (startOf df : Int) := by
  cases h : df.lastPart <;> simp [lastPartZ, startOf, h]

theorem lastPart_lt_of_startOf_le {df : DownloadingFile} {part q : Nat}
    (hs : startOf df ≤ part) (hq : df.lastPart = some q) : q < part := by
  simp [startOf, hq] at hs
  omega

theorem downloadPartLoop_stop (env : DownloadEnv) (ctx : TaskCtx)
    (reg : Option DownloadingFile) (part fuel : Nat) (h : ¬ part < ctx.partsCount) :
    downloadPartLoop env ctx reg part fuel = (reg, []) := by
  cases fuel with
  | zero => rfl
  | succ n => simp [downloadPartLoop, h]

theorem downloadPartLoop_gate (env : DownloadEnv) (ctx : TaskCtx)
    (reg : Option DownloadingFile) (part fuel : Nat)
    (h : reg = none ∨ ∃ d, reg = some d ∧ d.downloading = false) :
    downloadPartLoop env ctx reg part fuel = (reg, []) := by
  cases fuel with
  | zero => rfl
  | succ n =>
    by_cases hlt : part < ctx.partsCount
    · rcases h with h | ⟨d, rfl, hd⟩
      · subst h; simp [downloadPartLoop, hlt]
      · simp [downloadPartLoop, hlt, hd]
    · exact downloadPartLoop_stop env ctx reg part _ hlt

theorem req_not_mem_pauseWriteEvs (o : Option DownloadingFile) (p : Nat) (r : PartRequest) :
    Ev.req p r ∉ pauseWriteEvs o := by
  cases o with
  | none => simp [pauseWriteEvs]
  | some df =>
    simp only [pauseWriteEvs]
    split <;> simp

theorem downloadPartLoop_reqs (env : DownloadEnv) (ctx : TaskCtx) :
    ∀ (fuel : Nat) (reg : Option DownloadingFile) (part p : Nat) (r : PartRequest),
      Ev.req p r ∈ (downloadPartLoop env ctx reg part fuel).2 →
      part ≤ p ∧ p < ctx.partsCount ∧ r = mkPartRequest ctx p := by
  intro fuel
  induction fuel with
  | zero => intro reg part p r h; simp [downloadPartLoop] at h
  | succ n ih =>
    intro reg part p r h
    by_cases hlt : part < ctx.partsCount
    · match reg with
      | none => simp [downloadPartLoop, hlt] at h
      | some df =>
        by_cases hd : df.downloading
        · rw [downloadPartLoop] at h
          simp only [if_pos hlt, hd, if_true] at h
          cases htr : env.transport part with
          | error m =>
            by_cases hm : m = "FILE_REFERENCE_EXPIRED"
            · simp only [htr, hm, if_pos rfl] at h
              rcases List.mem_cons.mp h with he | hrest
              · rcases Ev.req.injEq .. ▸ he with ⟨rfl, rfl⟩
                exact ⟨le_refl _, hlt, rfl⟩
              · rcases List.mem_append.mp hrest with hp | hr
                · exact absurd hp (req_not_mem_pauseWriteEvs _ _ _)
                · simp at hr
            · simp only [htr, if_neg hm] at h
              simp at h
              rcases h with ⟨rfl, rfl⟩
              exact ⟨le_refl _, hlt, rfl⟩
          | ok b =>
            simp only [htr] at h
            cases hreg1 : env.interf part (some df) with
            | none =>
              simp only [hreg1] at h
              simp at h
              rcases h with ⟨rfl, rfl⟩
              exact ⟨le_refl _, hlt, rfl⟩
            | some df2 =>
              simp only [hreg1] at h
              by_cases hlast : part = ctx.partsCount - 1
              · simp only [if_pos hlast] at h
                simp only [List.mem_cons] at h
                rcases h with he | he | he | he | hrest
                · rcases Ev.req.injEq .. ▸ he with ⟨rfl, rfl⟩
                  exact ⟨le_refl _, hlt, rfl⟩
                · simp at he
                · simp at he
                · simp at he
                · rcases ih _ _ _ _ hrest with ⟨h1, h2, h3⟩
                  exact ⟨by omega, h2, h3⟩
              · simp only [if_neg hlast] at h
                simp only [List.mem_cons] at h
                rcases h with he | he | he | hrest
                · rcases Ev.req.injEq .. ▸ he with ⟨rfl, rfl⟩
                  exact ⟨le_refl _, hlt, rfl⟩
                · simp at he
                · simp at he
                · rcases ih _ _ _ _ hrest with ⟨h1, h2, h3⟩
                  exact ⟨by omega, h2, h3⟩
        · rw [downloadPartLoop] at h
          simp only [if_pos hlt] at h
          simp [hd] at h
    · rw [downloadPartLoop_stop env ctx _ part _ hlt] at h
      simp at h

theorem downloadPartLoop_pure (tr : Nat → Except String Nat) (tb : String → String → String)
    (ctx : TaskCtx) :
    ∀ (fuel part : Nat) (df : DownloadingFile),
      df.fileKey = none → df.downloading = true → df.partsCount = ctx.partsCount →
      startOf df ≤ part →
      List.Chain' (· ≤ ·) (lastPartZ df ::
        (writesOf (downloadPartLoop (pureEnv tr tb) ctx (some df) part fuel).2).map lastPartZ) ∧
      (∀ w ∈ writesOf (downloadPartLoop (pureEnv tr tb) ctx (some df) part fuel).2,
        w.partsCount = ctx.partsCount ∧
        (∀ q, w.lastPart = some q → q < ctx.partsCount) ∧
        (w.fileKey.isSome = true → w.downloading = false)) ∧
      noReqAfterTerminal (downloadPartLoop (pureEnv tr tb) ctx (some df) part fuel).2 = true ∧
      List.Chain' (· ≤ ·)
        ((writesOf (downloadPartLoop (pureEnv tr tb) ctx (some df) part fuel).2).map
          DownloadingFile.progress) ∧
      (∀ w ∈ (writesOf (downloadPartLoop (pureEnv tr tb) ctx (some df) part fuel).2).head?,
        w.progress = df.progress ∨ w.progress = jsRound ((part + 1) * 100) ctx.partsCount) := by
  intro fuel
  induction fuel with
  | zero =>
    intro part df hfk hdl hpc hs
    simp [downloadPartLoop, writesOf, noReqAfterTerminal]
  | succ n ih =>
    intro part df hfk hdl hpc hs
    by_cases hlt : part < ctx.partsCount
    · have hzle : lastPartZ df ≤ (part : Int) := by
        have h1 := lastPartZ_lt_startOf df
        have h2 : (startOf df : Int) ≤ (part : Int) := Int.ofNat_le.mpr hs
        omega
      rw [downloadPartLoop]
      simp only [if_pos hlt, hdl, if_true, pureEnv]
      cases htr : tr part with
      | error m =>
        by_cases hm : m = "FILE_REFERENCE_EXPIRED"
        · simp only [htr, hm, if_pos rfl, pauseWriteEvs, pauseDownloadingFile, hdl, if_true]
          refine ⟨?_, ?_, ?_, ?_, ?_⟩
          · simp [writesOf, lastPartZ]
          · intro w hw
            simp [writesOf] at hw
            subst hw
            refine ⟨hpc, fun q hq => ?_, fun hsome => ?_⟩
            · have := lastPart_lt_of_startOf_le hs hq
              omega
            · simp [hfk] at hsome
          · simp [noReqAfterTerminal, isTermWriteEv, isReqEv, hfk]
          · simp [writesOf]
          · intro w hw
            simp [writesOf] at hw
            subst hw
            left
            rfl
        · simp only [htr, if_neg hm]
          simp [writesOf, noReqAfterTerminal, isTermWriteEv]
      | ok b =>
        simp only [htr]
        by_cases hlast : part = ctx.partsCount - 1
        · simp only [if_pos hlast]
          have hstop : ¬ part + 1 < ctx.partsCount := by omega
          rw [downloadPartLoop_stop _ _ _ _ _ hstop]
          refine ⟨?_, ?_, ?_, ?_, ?_⟩
          · simp [writesOf, lastPartZ]
            exact hzle
          · intro w hw
            simp [writesOf] at hw
            subst hw
            exact ⟨hpc, fun q hq => by simp at hq; omega, fun _ => rfl⟩
          · simp [noReqAfterTerminal, isTermWriteEv, isReqEv]
          · simp [writesOf]
          · intro w hw
            simp [writesOf, Option.mem_def] at hw
            subst hw
            right
            rfl
        · simp only [if_neg hlast]
          have ihAll := ih (part + 1) { df with
              downloading := true
              lastPart := some part
              progress := jsRound ((part + 1) * 100) ctx.partsCount }
            (by simpa using hfk) rfl (by simpa using hpc) (by simp [startOf])
          rcases ihAll with ⟨ih1, ih2, ih3, ih4, ih5⟩
          simp only [pureEnv] at ih1 ih2 ih3 ih4 ih5
          refine ⟨?_, ?_, ?_, ?_, ?_⟩
          · simp only [writesOf, List.filterMap_cons] at ih1 ⊢
            simp only [List.map_cons] at ih1 ⊢
            refine (List.chain'_cons).mpr ⟨?_, ih1⟩
            simpa [lastPartZ] using hzle
          · intro w hw
            simp only [writesOf, List.filterMap_cons, List.mem_cons] at hw
            rcases hw with rfl | hw
            · exact ⟨hpc, fun q hq => by simp at hq; omega, fun hsome => by simp [hfk] at hsome⟩
            · exact ih2 w hw
          · simp only [noReqAfterTerminal, isTermWriteEv, isReqEv, hfk, Option.isSome_none,
              Bool.not_false, Bool.true_or, Bool.true_and]
            simpa [noReqAfterTerminal, isTermWriteEv, hfk] using ih3
          · simp only [writesOf, List.filterMap_cons, List.map_cons] at ih4 ih5 ⊢
            refine (List.chain'_cons').mpr ⟨?_, ih4⟩
            intro y hy
            rw [List.head?_map] at hy
            rw [Option.mem_def, Option.map_eq_some'] at hy
            rcases hy with ⟨w0, hw0, rfl⟩
            rcases ih5 w0 (by simpa [Option.mem_def] using hw0) with heq | heq
            · simp [heq]
            · rw [heq]
              exact jsRound_mono _ (by omega)
          · intro w hw
            simp only [writesOf, List.filterMap_cons, List.head?_cons, Option.mem_def,
              Option.some_inj] at hw
            subst hw
            right
            rfl
    · rw [downloadPartLoop_stop _ _ _ _ _ hlt]
      simp [writesOf, noReqAfterTerminal]

theorem downloadPartLoop_fre (q : Nat) (ctx : TaskCtx) :
    ∀ (fuel part : Nat) (df : DownloadingFile),
      df.downloading = true → df.fileKey = none → df.partsCount = ctx.partsCount →
      part ≤ q → q < ctx.partsCount → ctx.partsCount - part ≤ fuel →
      ∃ d, (downloadPartLoop (freEnv q) ctx (some df) part fuel).1 = some d ∧
        d.downloading = false ∧ d.fileKey = none ∧ d.partsCount = ctx.partsCount ∧
        d.lastPart = (if part = q then df.lastPart else some (q - 1)) ∧
        Ev.refresh ∈ (downloadPartLoop (freEnv q) ctx (some df) part fuel).2 ∧
        (∀ p r, Ev.req p r ∈ (downloadPartLoop (freEnv q) ctx (some df) part fuel).2 → p ≤ q) := by
  intro fuel
  induction fuel with
  | zero =>
    intro part df _ _ _ hpq hq hfuel
    omega
  | succ n ih =>
    intro part df hdl hfk hpc hpq hq hfuel
    have hlt : part < ctx.partsCount := by omega
    rw [downloadPartLoop]
    simp only [if_pos hlt, hdl, if_true, freEnv, pureEnv]
    by_cases heq : part = q
    · simp only [freTransport, heq, if_pos rfl, pauseWriteEvs, pauseDownloadingFile, hdl, if_true]
      refine ⟨{ df with downloading := false }, rfl, rfl, by simpa using hfk,
        by simpa using hpc, by simp, by simp, ?_⟩
      intro p r hr
      simp at hr
      omega
    · have htr : freTransport q part = Except.ok 0 := by simp [freTransport, heq]
      simp only [htr]
      have hlast : ¬ part = ctx.partsCount - 1 := by omega
      simp only [if_neg hlast]
      have ihAll := ih (part + 1) { df with
          downloading := true
          lastPart := some part
          progress := jsRound ((part + 1) * 100) ctx.partsCount }
        rfl (by simpa using hfk) (by simpa using hpc) (by omega) hq (by omega)
      simp only [freEnv, pureEnv] at ihAll
      rcases ihAll with ⟨d, hd1, hd2, hd3, hd4, hd5, hd6, hd7⟩
      refine ⟨d, hd1, hd2, hd3, hd4, ?_, ?_, ?_⟩
      · rw [hd5, if_neg heq]
        by_cases hq1 : part + 1 = q
        · rw [if_pos hq1]
          simp
          omega
        · rw [if_neg hq1]
      · simp only [List.mem_cons]
        right; right; right
        exact hd6
      · intro p r hr
        simp only [List.mem_cons] at hr
        rcases hr with he | he | he | hrest
        · rcases Ev.req.injEq .. ▸ he with ⟨rfl, rfl⟩
          omega
        · simp at he
        · simp at he
        · exact hd7 p r hrest

theorem assignLanes_mod :
    ∀ (ts : List Nat) (c : Nat) (L : List (List Nat)), c < 4 →
      assignLanes { nextIndex := c, lanes := L } ts =
        (List.range ts.length).map fun k => (c + k) % 4 := by
  intro ts
  induction ts with
  | nil =>
    intro c L hc
    rfl
  | cons t ts ih =>
    intro c L hc
    have hm : MAX_DOWNLOADING_COUNT = 4 := rfl
    simp only [assignLanes, downloadingQueueAdd]
    rw [List.length_cons, List.range_succ_eq_map, List.map_cons, List.map_map]
    congr 1
    · omega
    · rw [ih (if c = MAX_DOWNLOADING_COUNT - 1 then 0 else c + 1)
          (L.set c (L.getD c [] ++ [t])) (by rw [hm]; split <;> omega)]
      apply List.map_congr_left
      intro k hk
      simp only [Function.comp, hm]
      split <;> omega

theorem mem_ite_nil {α : Type} {c : Prop} [Decidable c] {x : α} {l : List α}
    (h : x ∈ (if c then l else [])) : c ∧ x ∈ l := by
  by_cases hc : c
  · rw [if_pos hc] at h
    exact ⟨hc, h⟩
  · rw [if_neg hc] at h
    simp at h

theorem progValues_mem {t : List UpEv} {v : Nat} (h : v ∈ progValues t) :
    ∃ p, UpEv.prog p v ∈ t := by
  rcases List.mem_filterMap.mp h with ⟨e, he, hfe⟩
  cases e with
  | prog p v0 =>
    simp only [Option.some_inj] at hfe
    exact ⟨p, hfe ▸ he⟩
  | read s e => simp at hfe
  | send p => simp at hfe
  | purge => simp at hfe
  | marker i => simp at hfe

theorem uploadFileLoop_events (env : UploadEnv) (ps : FileParams) (isMain : Bool) (k : String) :
    ∀ (fuel : Nat) (msg : Option SendingMsg) (part : Nat),
      (∀ s e, UpEv.read s e ∈ (uploadFileLoop env ps isMain k fuel msg part).2.2 →
        ∃ p, part ≤ p ∧ p < ps.partsCount ∧ s = p * ps.partSize ∧
          e = p * ps.partSize + (if p = ps.partsCount - 1 then ps.lastPartSize else ps.partSize)) ∧
      (∀ p v, UpEv.prog p v ∈ (uploadFileLoop env ps isMain k fuel msg part).2.2 →
        isMain = true ∧ part ≤ p ∧ v = jsRound ((p + 1) * 100) ps.partsCount) ∧
      List.Chain' (· ≤ ·) (progValues (uploadFileLoop env ps isMain k fuel msg part).2.2) := by
  intro fuel
  induction fuel with
  | zero =>
    intro msg part
    refine ⟨?_, ?_, ?_⟩ <;>
      simp only [uploadFileLoop] <;> split <;> simp [progValues]
  | succ n ih =>
    intro msg part
    by_cases hlt : part < ps.partsCount
    · rw [uploadFileLoop]
      simp only [if_pos hlt]
      by_cases hup : checkIsUploading msg k
      · simp only [hup, if_true]
        by_cases hb : env.bytesOk part
        · simp only [hb, if_true]
          rcases ih (if isMain = true then onUploadPart (env.interfB part (env.interfA part msg)) k
              (jsRound ((part + 1) * 100) ps.partsCount) else env.interfB part (env.interfA part msg))
            (part + 1) with ⟨ih1, ih2, ih4⟩
          refine ⟨?_, ?_, ?_⟩
          · intro s e hse
            simp only [List.mem_cons, List.mem_append] at hse
            rcases hse with (he | he | hin) | hrest
            · rcases UpEv.read.injEq .. ▸ he with ⟨rfl, rfl⟩
              exact ⟨part, le_refl _, hlt, rfl, rfl⟩
            · simp at he
            · rcases mem_ite_nil hin with ⟨_, hmem⟩
              simp at hmem
            · rcases ih1 s e hrest with ⟨p, hp1, hp2, hp3, hp4⟩
              exact ⟨p, by omega, hp2, hp3, hp4⟩
          · intro p v hpv
            simp only [List.mem_cons, List.mem_append] at hpv
            rcases hpv with (he | he | hin) | hrest
            · simp at he
            · simp at he
            · rcases mem_ite_nil hin with ⟨hc, hmem⟩
              simp only [List.mem_singleton] at hmem
              rcases UpEv.prog.injEq .. ▸ hmem with ⟨rfl, rfl⟩
              exact ⟨((Bool.and_eq_true ..).mp hc).1, le_refl _, rfl⟩
            · rcases ih2 p v hrest with ⟨hm, hp, hv⟩
              exact ⟨hm, by omega, hv⟩
          · cases hcond : isMain && (env.interfB part (env.interfA part msg)).isSome with
            | false =>
              simp only [progValues, List.filterMap_cons, List.filterMap_append, hcond,
                Bool.false_eq_true, if_false, List.filterMap_nil, List.nil_append]
              simpa [progValues] using ih4
            | true =>
              simp only [progValues, List.filterMap_cons, List.filterMap_append, hcond, if_true,
                List.filterMap_nil, List.singleton_append]
              refine (List.chain'_cons').mpr ⟨?_, by simpa [progValues] using ih4⟩
              intro y hy
              have hmem : y ∈ progValues (uploadFileLoop env ps isMain k n
                  (if isMain = true then onUploadPart (env.interfB part (env.interfA part msg)) k
                    (jsRound ((part + 1) * 100) ps.partsCount)
                   else env.interfB part (env.interfA part msg)) (part + 1)).2.2 := by
                simpa [progValues] using List.mem_of_mem_head? hy
              rcases progValues_mem hmem with ⟨p, hp⟩
              rcases ih2 p y hp with ⟨_, hple, rfl⟩
              exact jsRound_mono _ (by omega)
        · simp only [hb, if_false]
          refine ⟨?_, ?_, ?_⟩
          · intro s e hse
            simp at hse
            rcases hse with ⟨rfl, rfl⟩
            exact ⟨part, le_refl _, hlt, rfl, rfl⟩
          · intro p v hpv
            simp at hpv
          · simp [progValues]
      · simp only [hup, if_false]
        refine ⟨?_, ?_, ?_⟩ <;> simp [progValues]
    · rw [uploadFileLoop]
      simp only [if_neg hlt]
      refine ⟨?_, ?_, ?_⟩ <;> simp [progValues]

theorem uploadFileLoop_send_prog (b : Nat → Bool) (ps : FileParams) (k : String) :
    ∀ (fuel : Nat) (m : SendingMsg) (part p : Nat),
      UpEv.send p ∈ (uploadFileLoop (idUploadEnv b) ps true k fuel (some m) part).2.2 →
      UpEv.prog p (jsRound ((p + 1) * 100) ps.partsCount) ∈
        (uploadFileLoop (idUploadEnv b) ps true k fuel (some m) part).2.2 := by
  intro fuel
  induction fuel with
  | zero =>
    intro m part p h
    simp only [uploadFileLoop] at h
    split at h <;> simp at h
  | succ n ih =>
    intro m part p h
    rw [uploadFileLoop] at h ⊢
    by_cases hlt : part < ps.partsCount
    · simp only [if_pos hlt] at h ⊢
      by_cases hup : checkIsUploading (some m) k
      · simp only [hup, if_true] at h ⊢
        by_cases hbp : b part
        · simp only [idUploadEnv, hbp, if_true, Option.isSome_some, Bool.and_self,
            List.singleton_append, onUploadPart] at h ⊢
          simp only [idUploadEnv] at ih
          simp only [List.mem_append, List.mem_cons, List.not_mem_nil, or_false] at h
          rcases h with (he | he | he) | hrest
          · simp at he
          · rcases UpEv.send.injEq .. ▸ he with rfl
            apply List.mem_append_left
            simp
          · simp at he
          · apply List.mem_append_right
            exact ih _ _ p hrest
        · simp only [idUploadEnv, hbp, if_false] at h
          simp at h
      · simp only [hup, if_false] at h
        simp at h
    · simp only [if_neg hlt] at h
      simp at h

/-! ### Stream lemmas -/

theorem mergeRef_folder (sf : StreamingFile) (fref : Option Nat) :
    (mergeRef sf fref).folder = sf.folder := by
  cases fref <;> rfl

theorem mergeRef_messageId (sf : StreamingFile) (fref : Option Nat) :
    (mergeRef sf fref).messageId = sf.messageId := by
  cases fref <;> rfl

theorem downloadStreamFilePart_noRetry (env : StreamEnv) (off psz fuel d : Nat)
    (sf : StreamingFile) (fref : Option Nat)
    (hfre : ∀ r, env.transport r = Except.error "FILE_REFERENCE_EXPIRED")
    (hgate : sf.folder = none ∨ sf.messageId.getD 0 = 0) :
    (downloadStreamFilePart env off psz (fuel + 1) (some sf) fref d).2.1 = none ∧
    sCountReqs (downloadStreamFilePart env off psz (fuel + 1) (some sf) fref d).2.2 = 1 ∧
    SEv.refresh ∉ (downloadStreamFilePart env off psz (fuel + 1) (some sf) fref d).2.2 := by
  rw [downloadStreamFilePart]
  simp only [hfre, if_pos rfl]
  have hcond : ((mergeRef sf fref).folder.isSome &&
      decide (¬ (mergeRef sf fref).messageId.getD 0 = 0)) = false := by
    rw [mergeRef_folder, mergeRef_messageId]
    rcases hgate with hf | hm
    · simp [hf]
    · simp [hm]
  simp only [hcond, Bool.false_eq_true, if_false]
  refine ⟨rfl, rfl, ?_⟩
  simp [sCountReqs, sReqsOf]

theorem downloadStreamFilePart_unbounded (env : StreamEnv) (off psz : Nat)
    (hfre : ∀ r, env.transport r = Except.error "FILE_REFERENCE_EXPIRED") :
    ∀ (fuel : Nat) (sf : StreamingFile) (fref : Option Nat) (d : Nat),
      sf.folder.isSome = true → ¬ sf.messageId.getD 0 = 0 →
      sCountReqs (downloadStreamFilePart env off psz fuel (some sf) fref d).2.2 = fuel ∧
      sCountRefresh (downloadStreamFilePart env off psz fuel (some sf) fref d).2.2 = fuel ∧
      (downloadStreamFilePart env off psz fuel (some sf) fref d).2.1 = none ∧
      (∀ r ∈ sReqsOf (downloadStreamFilePart env off psz fuel (some sf) fref d).2.2,
        r.offsetSize = off ∧ r.partSize = psz) := by
  intro fuel
  induction fuel with
  | zero =>
    intro sf fref d hf hm
    simp [downloadStreamFilePart, sCountReqs, sReqsOf, sCountRefresh]
  | succ n ih =>
    intro sf fref d hf hm
    rw [downloadStreamFilePart]
    simp only [hfre, if_pos rfl]
    have hcond : ((mergeRef sf fref).folder.isSome &&
        decide (¬ (mergeRef sf fref).messageId.getD 0 = 0)) = true := by
      rw [mergeRef_folder, mergeRef_messageId]
      simp [hf, hm]
    simp only [hcond, if_true]
    rcases ih (mergeRef sf fref)
        (getFileReference (env.store d) (mergeRef sf fref).id) (d + 1)
        (by rw [mergeRef_folder]; exact hf)
        (by rw [mergeRef_messageId]; exact hm) with ⟨ih1, ih2, ih3, ih4⟩
    refine ⟨?_, ?_, ih3, ?_⟩
    · simp only [sCountReqs, sReqsOf, List.filterMap_cons] at ih1 ⊢
      simp [ih1]
    · simp only [sCountRefresh, List.countP_cons] at ih2 ⊢
      simp [ih2]
    · intro r hr
      simp only [sReqsOf, List.filterMap_cons] at hr
      simp only [List.mem_cons] at hr
      rcases hr with rfl | hr
      · exact ⟨rfl, rfl⟩
      · exact ih4 r (by simpa [sReqsOf] using hr)

theorem uploadFiles_step (benv : BatchEnv) (k : String) (f : InputFile)
    (rest : List InputFile) (i : Nat) (m0 m2 : SendingMsg) (ps : FileParams)
    (hkey : f.fileKey = some k)
    (hup : (uploadFile (benv.fileEnv i) k (some m0)).2.1 = some ps)
    (hok : benv.createOk i = true)
    (hrest : rest ≠ [])
    (hmsg : benv.interfC i (uploadFile (benv.fileEnv i) k (some m0)).1 = some m2) :
    uploadFiles benv (f :: rest) i (some m0) =
      ((uploadFiles benv rest (i + 1) (some (removeFileKey m2 (some k)))).1,
       (uploadFile (benv.fileEnv i) k (some m0)).2.2 ++ [UpEv.marker i] ++
         (uploadFiles benv rest (i + 1) (some (removeFileKey m2 (some k)))).2) := by
  obtain ⟨r0, rs, rfl⟩ := List.exists_cons_of_ne_nil hrest
  rw [uploadFiles]
  simp only [hkey, hup, hmsg, hok, List.isEmpty_cons, Bool.not_false, Bool.and_self, if_true]

theorem removeFileKey_not_mem (m : SendingMsg) (k : Option String) :
    ∀ g ∈ (removeFileKey m k).inputFiles, ¬ g.fileKey = k := by
  intro g hg
  rcases List.mem_filter.mp hg with ⟨_, hdec⟩
  exact of_decide_eq_true hdec

/-! ## Claim theorems -/

/-- C1: a download task run on an entry recording last completed part
`lastPart` (unset meaning `-1`) starts its part loop at `lastPart + 1` and
stays below `partsCount`, so no transport request is issued for any part
in `0..lastPart`; and before each part fetch the current entry is re-read:
when it is absent or its `downloading` flag is off, the loop returns at
once without issuing that part request. -/
theorem c1_resume_and_gate :
    (∀ (env : DownloadEnv) (df : DownloadingFile) (p : Nat) (r : PartRequest),
      Ev.req p r ∈ (downloadTask env (some df)).2 →
      startOf df ≤ p ∧ p < df.partsCount) ∧
    (∀ (env : DownloadEnv) (ctx : TaskCtx) (reg : Option DownloadingFile) (part fuel : Nat),
      (reg = none ∨ ∃ d, reg = some d ∧ d.downloading = false) →
      downloadPartLoop env ctx reg part fuel = (reg, [])) := by
  constructor
  · intro env df p r h
    simp only [downloadTask] at h
    rcases downloadPartLoop_reqs env (ctxOf df) _ _ _ _ _ h with ⟨h1, h2, _⟩
    exact ⟨h1, h2⟩
  · exact downloadPartLoop_gate

theorem c1_witness :
    (startOf dfW ≤ 0 ∧ 0 < dfW.partsCount) ∧
    downloadPartLoop envOk (ctxOf dfW) (some dfPausedW) 0 2 = (some dfPausedW, []) :=
  ⟨c1_resume_and_gate.1 envOk dfW 0 (mkPartRequest (ctxOf dfW) 0) (by decide),
   c1_resume_and_gate.2 envOk (ctxOf dfW) (some dfPausedW) 0 2 (Or.inr ⟨dfPausedW, rfl, rfl⟩)⟩

/-- C2: when the transport rejects part `q` of a queued download with
`FILE_REFERENCE_EXPIRED` (earlier parts succeeding), the run pauses the
entry (`downloading := false`) with `lastPart` exactly what it was before
the failed request, requests a message refresh, issues no request beyond
part `q`, and leaves an entry that only a new explicit `downloadFile`
call re-enqueues. -/
theorem c2_reference_expiry (df : DownloadingFile) (q : Nat)
    (hdl : df.downloading = true) (hfk : df.fileKey = none)
    (hsq : startOf df ≤ q) (hq : q < df.partsCount) :
    ∃ d, (downloadTask (freEnv q) (some df)).1 = some d ∧
      d.downloading = false ∧
      d.lastPart = (if startOf df = q then df.lastPart else some (q - 1)) ∧
      d.fileKey = none ∧
      Ev.refresh ∈ (downloadTask (freEnv q) (some df)).2 ∧
      (∀ p r, Ev.req p r ∈ (downloadTask (freEnv q) (some df)).2 →
        startOf df ≤ p ∧ p ≤ q) ∧
      (downloadFile (some d) df).2 = true := by
  have hrun := downloadPartLoop_fre q (ctxOf df) (df.partsCount - startOf df) (startOf df) df
    hdl hfk rfl hsq hq (le_refl _)
  rcases hrun with ⟨d, hA, hB, hC, hD, hE, hF, hG⟩
  refine ⟨d, ?_, hB, ?_, hC, ?_, ?_, ?_⟩
  · simpa only [downloadTask] using hA
  · exact hE
  · simpa only [downloadTask] using hF
  · intro p r hr
    have hr' : Ev.req p r ∈ (downloadPartLoop (freEnv q) (ctxOf df) (some df) (startOf df)
        (df.partsCount - startOf df)).2 := by simpa only [downloadTask] using hr
    exact ⟨(downloadPartLoop_reqs (freEnv q) (ctxOf df) _ _ _ _ _ hr').1, hG p r hr'⟩
  · have hgate : (d.fileKey.isSome || d.downloading) = false := by simp [hB, hC]
    simp [downloadFile, hgate]

theorem c2_witness :
    Ev.refresh ∈ (downloadTask (freEnv 1) (some dfW3)).2 := by
  obtain ⟨d, _, _, _, _, h5, _, _⟩ := c2_reference_expiry dfW3 1 rfl rfl (by decide) (by decide)
  exact h5

/-- C3, counterexample: with a transport that always reports
`FILE_REFERENCE_EXPIRED` and a streaming entry whose owning folder and
message are present, one stream read issues three transport requests for
the identical range — the code retries after every expiry failure, not at
most once per original read. -/
theorem c3_counterexample :
    sReqsOf (downloadStreamFilePart envC3 100 50 3 (some sfC3) none 0).2.2 =
      [mkStreamRequest sfC3 100 50,
       mkStreamRequest { sfC3 with file_reference := 9 } 100 50,
       mkStreamRequest { sfC3 with file_reference := 9 } 100 50] ∧
    2 < sCountReqs (downloadStreamFilePart envC3 100 50 3 (some sfC3) none 0).2.2 := by
  decide

/-- C3, amended: on a `FILE_REFERENCE_EXPIRED` stream-read failure, if the
entry lacks a folder or a usable messageId the read fails with a single
request and no refresh; otherwise the engine refreshes and retries the
identical range (same `offsetSize` and `partSize`) on every expiry
failure, one request and one refresh per continuation delivered, with no
retry limit. -/
theorem c3_stream_retry :
    (∀ (env : StreamEnv) (off psz fuel d : Nat) (sf : StreamingFile) (fref : Option Nat),
      (∀ r, env.transport r = Except.error "FILE_REFERENCE_EXPIRED") →
      (sf.folder = none ∨ sf.messageId.getD 0 = 0) →
      (downloadStreamFilePart env off psz (fuel + 1) (some sf) fref d).2.1 = none ∧
      sCountReqs (downloadStreamFilePart env off psz (fuel + 1) (some sf) fref d).2.2 = 1 ∧
      SEv.refresh ∉ (downloadStreamFilePart env off psz (fuel + 1) (some sf) fref d).2.2) ∧
    (∀ (env : StreamEnv) (off psz : Nat),
      (∀ r, env.transport r = Except.error "FILE_REFERENCE_EXPIRED") →
      ∀ (fuel : Nat) (sf : StreamingFile) (fref : Option Nat) (d : Nat),
        sf.folder.isSome = true → ¬ sf.messageId.getD 0 = 0 →
        sCountReqs (downloadStreamFilePart env off psz fuel (some sf) fref d).2.2 = fuel ∧
        sCountRefresh (downloadStreamFilePart env off psz fuel (some sf) fref d).2.2 = fuel ∧
        (downloadStreamFilePart env off psz fuel (some sf) fref d).2.1 = none ∧
        (∀ r ∈ sReqsOf (downloadStreamFilePart env off psz fuel (some sf) fref d).2.2,
          r.offsetSize = off ∧ r.partSize = psz)) :=
  ⟨fun env off psz fuel d sf fref h1 h2 =>
      downloadStreamFilePart_noRetry env off psz fuel d sf fref h1 h2,
   fun env off psz h fuel sf fref d hf hm =>
      downloadStreamFilePart_unbounded env off psz h fuel sf fref d hf hm⟩

theorem c3_witness :
    (downloadStreamFilePart envC3 10 5 1 (some sfN) none 0).2.1 = none ∧
    sCountReqs (downloadStreamFilePart envC3 7 3 2 (some sfC3) none 0).2.2 = 2 := by
  constructor
  · exact (c3_stream_retry.1 envC3 10 5 0 0 sfN none (fun r => rfl) (Or.inl rfl)).1
  · exact (c3_stream_retry.2 envC3 7 3 (fun r => rfl) 2 sfC3 none 0 (by decide) (by decide)).1

/-- C4: requests are assigned to lanes strictly round-robin from a fresh
queue — the k-th request (from 0) lands on lane `k mod 4` whatever the
lanes already hold — and five sequential requests get lanes
`[0, 1, 2, 3, 0]`. -/
theorem c4_round_robin :
    (∀ (ts : List Nat) (L : List (List Nat)),
      assignLanes { nextIndex := 0, lanes := L } ts =
        (List.range ts.length).map fun k => k % MAX_DOWNLOADING_COUNT) ∧
    assignLanes initQueue [0, 1, 2, 3, 4] = [0, 1, 2, 3, 0] := by
  constructor
  · intro ts L
    have h := assignLanes_mod ts 0 L (by omega)
    simpa [MAX_DOWNLOADING_COUNT] using h
  · decide

/-- C5: within one task run on an engine-registered entry (no terminal
key yet), every registry write keeps `lastPart` non-decreasing (from its
initial value) and below `partsCount`, a write that assigns a terminal
`fileKey` also clears `downloading`, and no transport request follows a
terminal write; the other engine operations (`pauseDownloadingFile` and a
`downloadFile` registration) never change `lastPart`. -/
theorem c5_lastPart_invariant :
    (∀ (tr : Nat → Except String Nat) (tb : String → String → String) (df : DownloadingFile),
      df.fileKey = none → df.downloading = true →
      List.Chain' (· ≤ ·) (lastPartZ df ::
        (writesOf (downloadTask (pureEnv tr tb) (some df)).2).map lastPartZ) ∧
      (∀ w ∈ writesOf (downloadTask (pureEnv tr tb) (some df)).2,
        (∀ q, w.lastPart = some q → q < w.partsCount) ∧
        (w.fileKey.isSome = true → w.downloading = false)) ∧
      noReqAfterTerminal (downloadTask (pureEnv tr tb) (some df)).2 = true) ∧
    (∀ (o : Option DownloadingFile) (d : DownloadingFile),
      pauseDownloadingFile o = some d → ∃ d0, o = some d0 ∧ d.lastPart = d0.lastPart) ∧
    (∀ (o : Option DownloadingFile) (f d : DownloadingFile),
      (downloadFile o f).1 = some d → d.lastPart = (o.getD f).lastPart) := by
  refine ⟨?_, ?_, ?_⟩
  · intro tr tb df hfk hdl
    rcases downloadPartLoop_pure tr tb (ctxOf df) (df.partsCount - startOf df) (startOf df) df
        hfk hdl rfl (le_refl _) with ⟨h1, h2, h3, _, _⟩
    refine ⟨?_, ?_, ?_⟩
    · simpa only [downloadTask] using h1
    · intro w hw
      have hw' : w ∈ writesOf (downloadPartLoop (pureEnv tr tb) (ctxOf df) (some df)
          (startOf df) (df.partsCount - startOf df)).2 := by
        simpa only [downloadTask] using hw
      rcases h2 w hw' with ⟨hpc, hlp, hterm⟩
      exact ⟨fun q hq => by rw [hpc]; exact hlp q hq, hterm⟩
    · simpa only [downloadTask] using h3
  · intro o d h
    cases o with
    | none => simp [pauseDownloadingFile] at h
    | some d0 =>
      refine ⟨d0, rfl, ?_⟩
      simp only [pauseDownloadingFile] at h
      split at h <;> simp only [Option.some_inj] at h <;> subst h <;> rfl
  · intro o f d h
    simp only [downloadFile] at h
    split at h
    · have h' : o = some d := h
      rw [h']
      rfl
    · simp only [Option.some_inj] at h
      subst h
      split <;> rfl

theorem c5_witness :
    noReqAfterTerminal (downloadTask (pureEnv (fun _ => Except.ok 0) fun k _ => k)
      (some dfW)).2 = true ∧
    ({ dfW with partSize := 512000, partsCount := 1 } : DownloadingFile).lastPart =
      ((some (dfPausedW : DownloadingFile)).getD dfW).lastPart := by
  constructor
  · exact (c5_lastPart_invariant.1 (fun _ => Except.ok 0) (fun k _ => k) dfW rfl rfl).2.2
  · exact c5_lastPart_invariant.2.2 (some dfPausedW) dfW
      { dfW with partSize := 512000, partsCount := 1 } (by decide)

/-- C6: in one per-file upload loop, every part store read covers exactly
the byte range `[p * partSize, p * partSize + s)` with `s` the last part
size on the final part and `partSize` otherwise; every progress write
carries the value `round((p + 1) / partsCount * 100)` and occurs only for
the main file; and with the message present and undisturbed, each
uploaded main-file part is followed by exactly that progress write. -/
theorem c6_upload_parts :
    (∀ (env : UploadEnv) (ps : FileParams) (isMain : Bool) (k : String) (fuel : Nat)
       (msg : Option SendingMsg) (s e : Nat),
      UpEv.read s e ∈ (uploadFileLoop env ps isMain k fuel msg 0).2.2 →
      ∃ p, p < ps.partsCount ∧ s = p * ps.partSize ∧
        e = p * ps.partSize + (if p = ps.partsCount - 1 then ps.lastPartSize else ps.partSize)) ∧
    (∀ (env : UploadEnv) (ps : FileParams) (isMain : Bool) (k : String) (fuel : Nat)
       (msg : Option SendingMsg) (p v : Nat),
      UpEv.prog p v ∈ (uploadFileLoop env ps isMain k fuel msg 0).2.2 →
      isMain = true ∧ v = jsRound ((p + 1) * 100) ps.partsCount) ∧
    (∀ (b : Nat → Bool) (ps : FileParams) (k : String) (fuel : Nat) (m : SendingMsg) (p : Nat),
      UpEv.send p ∈ (uploadFileLoop (idUploadEnv b) ps true k fuel (some m) 0).2.2 →
      UpEv.prog p (jsRound ((p + 1) * 100) ps.partsCount) ∈
        (uploadFileLoop (idUploadEnv b) ps true k fuel (some m) 0).2.2) := by
  refine ⟨?_, ?_, ?_⟩
  · intro env ps isMain k fuel msg s e h
    rcases (uploadFileLoop_events env ps isMain k fuel msg 0).1 s e h with ⟨p, _, h2, h3, h4⟩
    exact ⟨p, h2, h3, h4⟩
  · intro env ps isMain k fuel msg p v h
    rcases (uploadFileLoop_events env ps isMain k fuel msg 0).2.1 p v h with ⟨h1, _, h3⟩
    exact ⟨h1, h3⟩
  · intro b ps k fuel m p h
    exact uploadFileLoop_send_prog b ps k fuel m 0 p h

theorem c6_witness :
    (∃ p, p < psU.partsCount ∧ 4 = p * psU.partSize ∧
      4 + 2 = p * psU.partSize +
        (if p = psU.partsCount - 1 then psU.lastPartSize else psU.partSize)) ∧
    (true = true ∧ 50 = jsRound ((0 + 1) * 100) psU.partsCount) ∧
    UpEv.prog 1 (jsRound ((1 + 1) * 100) psU.partsCount) ∈
      (uploadFileLoop (idUploadEnv bTrue) psU true "k" 2 (some mU) 0).2.2 :=
  ⟨c6_upload_parts.1 (idUploadEnv bTrue) psU true "k" 2 (some mU) 4 (4 + 2) (by decide),
   c6_upload_parts.2.1 (idUploadEnv bTrue) psU true "k" 2 (some mU) 0 50 (by decide),
   c6_upload_parts.2.2 bTrue psU "k" 2 mU 1 (by decide)⟩

/-- C7: in an upload batch, a non-final file that uploads successfully and
whose marker message is created is removed from the pending input-file
list before the batch continues; and in the concrete two-file batch where
the sending message disappears during the second file upload, only the
first file marker message is created and no error is surfaced. -/
theorem c7_batch_markers :
    (∀ (benv : BatchEnv) (k : String) (f : InputFile) (rest : List InputFile) (i : Nat)
       (m0 m2 : SendingMsg) (ps : FileParams),
       f.fileKey = some k →
       (uploadFile (benv.fileEnv i) k (some m0)).2.1 = some ps →
       benv.createOk i = true →
       rest ≠ [] →
       benv.interfC i (uploadFile (benv.fileEnv i) k (some m0)).1 = some m2 →
       UpEv.marker i ∈ (uploadFiles benv (f :: rest) i (some m0)).2 ∧
       (∀ g ∈ (removeFileKey m2 (some k)).inputFiles, ¬ g.fileKey = some k) ∧
       uploadFiles benv (f :: rest) i (some m0) =
         ((uploadFiles benv rest (i + 1) (some (removeFileKey m2 (some k)))).1,
          (uploadFile (benv.fileEnv i) k (some m0)).2.2 ++ [UpEv.marker i] ++
            (uploadFiles benv rest (i + 1) (some (removeFileKey m2 (some k)))).2)) ∧
    (uploadFiles benv7 [fA7, fB7] 0 (some msg7)).2.filter isMarkerEv = [UpEv.marker 0] := by
  constructor
  · intro benv k f rest i m0 m2 ps hkey hup hok hrest hmsg
    have hstep := uploadFiles_step benv k f rest i m0 m2 ps hkey hup hok hrest hmsg
    refine ⟨?_, removeFileKey_not_mem m2 (some k), hstep⟩
    rw [hstep]
    simp
  · decide

theorem c7_witness :
    UpEv.marker 0 ∈ (uploadFiles benv7 (fA7 :: [fB7]) 0 (some msg7)).2 :=
  (c7_batch_markers.1 benv7 "a" fA7 [fB7] 0 msg7 m2W psA rfl (by decide) rfl
    (by decide) (by decide)).1

/-- C8: `downloadFile` on a file whose registry entry already carries a
terminal `fileKey` or is already downloading leaves the registry unchanged
and enqueues nothing. -/
theorem c8_noop (df file : DownloadingFile)
    (h : df.fileKey.isSome = true ∨ df.downloading = true) :
    downloadFile (some df) file = (some df, false) := by
  have hgate : (df.fileKey.isSome || df.downloading) = true := by
    rcases h with h | h <;> simp [h]
  simp [downloadFile, hgate]

theorem c8_witness : downloadFile (some dfDone) dfW = (some dfDone, false) :=
  c8_noop dfDone dfW (Or.inl rfl)

/-- C9: the progress values written to the registry are non-decreasing
across one download task run and across one per-file upload loop run. -/
theorem c9_progress_monotone :
    (∀ (tr : Nat → Except String Nat) (tb : String → String → String) (df : DownloadingFile),
      df.fileKey = none → df.downloading = true →
      List.Chain' (· ≤ ·)
        ((writesOf (downloadTask (pureEnv tr tb) (some df)).2).map
          DownloadingFile.progress)) ∧
    (∀ (env : UploadEnv) (ps : FileParams) (isMain : Bool) (k : String) (fuel : Nat)
       (msg : Option SendingMsg),
      List.Chain' (· ≤ ·) (progValues (uploadFileLoop env ps isMain k fuel msg 0).2.2)) := by
  constructor
  · intro tr tb df hfk hdl
    rcases downloadPartLoop_pure tr tb (ctxOf df) (df.partsCount - startOf df) (startOf df) df
        hfk hdl rfl (le_refl _) with ⟨_, _, _, h4, _⟩
    simpa only [downloadTask] using h4
  · intro env ps isMain k fuel msg
    exact (uploadFileLoop_events env ps isMain k fuel msg 0).2.2

theorem c9_witness :
    List.Chain' (· ≤ ·)
      ((writesOf (downloadTask (pureEnv (fun _ => Except.ok 0) fun k _ => k)
        (some dfW)).2).map DownloadingFile.progress) :=
  c9_progress_monotone.1 (fun _ => Except.ok 0) (fun k _ => k) dfW rfl rfl

/-- C10: every part request of one task run carries the locators the task
destructured from the registry entry when it started — id, partSize,
dc_id, access_hash, file_reference, sizeType, originalSizeType — and the
offset `part * partSize`, for any interference on the registry during the
run; a file reference updated mid-run is therefore never used by this
run. -/
theorem c10_locators_fixed (env : DownloadEnv) (df : DownloadingFile) (p : Nat)
    (r : PartRequest) (h : Ev.req p r ∈ (downloadTask env (some df)).2) :
    r.id = df.id ∧ r.partSize = df.partSize ∧ r.offsetSize = p * df.partSize ∧
    r.dc_id = df.dc_id ∧ r.access_hash = df.access_hash ∧
    r.file_reference = df.file_reference ∧ r.sizeType = df.sizeType ∧
    r.originalSizeType = df.originalSizeType := by
  simp only [downloadTask] at h
  rcases downloadPartLoop_reqs env (ctxOf df) _ _ _ _ _ h with ⟨_, _, rfl⟩
  exact ⟨rfl, rfl, rfl, rfl, rfl, rfl, rfl, rfl⟩

theorem c10_witness :
    (mkPartRequest (ctxOf dfW) 1).file_reference = dfW.file_reference :=
  (c10_locators_fixed envRef dfW 1 (mkPartRequest (ctxOf dfW) 1) (by decide)).2.2.2.2.2.1

end TgStorage
